import Mathlib

/-!
Verification development for the step-ca PKI management console
(src/streamlit/app.py).

The application is a thin wrapper around the external step CLI plus
file-system bookkeeping under CERTS_DIR.  We embed the pure content of
each operation:

* subprocess results are values of ProcResult supplied by an
  environment record (one per external invocation the function makes);
* the file system is an explicit FS value: the subdirectories of
  CERTS_DIR (each a list of named files) plus the global CA bundle
  file; operations thread it explicitly;
* every operation also returns the list of external command lines it
  invoked (each one exactly the argv run_step_command builds), so that
  claims about which commands run are statements about that trace;
* Path.rename can raise (the source wraps it in try/except and
  swallows the error), so the revoke environment carries a flag saying
  whether the rename raises.
-/

set_option autoImplicit false

/-- Result of a completed subprocess, as in subprocess.CompletedProcess
(text mode: stdout/stderr are strings, returncode an integer). -/
structure ProcResult where
  returncode : Int
  stdout : String
  stderr : String
  deriving DecidableEq, Repr

/-- STEP_CA_URL (default value; the model fixes the default). -/
def STEP_CA_URL : String := "https://step-ca:9000"

/-- STEP_CA_ROOT (default value). -/
def STEP_CA_ROOT : String := "/home/step/certs/root_ca.crt"

/-- CA_BUNDLE path (intermediate + root bundle). -/
def CA_BUNDLE : String := "/home/step/certs/ca-bundle.crt"

/-- CERTS_DIR path. -/
def CERTS_DIR : String := "/app/certs"

/-- PROVISIONER_PASSWORD_FILE path. -/
def PROVISIONER_PASSWORD_FILE : String := "/home/step/secrets/password"

/-- Python str.strip(): remove leading and trailing whitespace. -/
def pyStrip (s : String) : String :=
  let t := s.data.dropWhile Char.isWhitespace
  String.mk ((t.reverse.dropWhile Char.isWhitespace).reverse)

/-- Python str.lower(). -/
def pyLower (s : String) : String :=
  String.mk (s.data.map Char.toLower)

/-- Does the second list occur at the head of the first? -/
def beginsWith : List Char → List Char → Bool
  | _, [] => true
  | [], _ :: _ => false
  | a :: as, b :: bs => a = b && beginsWith as bs

/-- Python substring test (needle in haystack), on character lists. -/
def hasSub : List Char → List Char → Bool
  | [], needle => needle.isEmpty
  | a :: t, needle => beginsWith (a :: t) needle || hasSub t needle

/-- Does the second list occur at the end of the first? -/
def hasSuffix (l suffix : List Char) : Bool :=
  beginsWith l.reverse suffix.reverse

/-- Does a directory name end in ".revoked"? -/
def endsRevoked (s : String) : Bool :=
  hasSuffix s.data ".revoked".data

/-- Association-list lookup by string key, first match wins. -/
def lookupA {α : Type} : List (String × α) → String → Option α
  | [], _ => none
  | (k, v) :: rest, n => if k = n then some v else lookupA rest n

/-- Remove every entry with the given key. -/
def eraseA {α : Type} : List (String × α) → String → List (String × α)
  | [], _ => []
  | (k, v) :: rest, n => if k = n then eraseA rest n else (k, v) :: eraseA rest n

/-- Bind a key to a value (replacing any previous binding). -/
def insertA {α : Type} (l : List (String × α)) (k : String) (v : α) :
    List (String × α) :=
  (k, v) :: eraseA l k

/-- Contents of one subdirectory of CERTS_DIR: file name to file text. -/
abbrev Dir := List (String × String)

/-- The slice of the file system the application touches: the
subdirectories of CERTS_DIR, and the CA bundle file at CA_BUNDLE
(none when that file does not exist). -/
structure FS where
  dirs : List (String × Dir)
  caBundle : Option String
  deriving DecidableEq, Repr

/-- Does the subdirectory named n of CERTS_DIR exist? -/
def dirExists (fs : FS) (n : String) : Bool :=
  (lookupA fs.dirs n).isSome

/-- Path.mkdir(parents=True, exist_ok=True) on CERTS_DIR / n. -/
def mkdirExistOk (fs : FS) (n : String) : FS :=
  match lookupA fs.dirs n with
  | some _ => fs
  | none => { fs with dirs := insertA fs.dirs n [] }

/-- Write a file into subdirectory n (a no-op when the directory is
missing; every use in the model happens after the directory exists). -/
def writeFileIn (fs : FS) (n fname content : String) : FS :=
  match lookupA fs.dirs n with
  | some d => { fs with dirs := insertA fs.dirs n (insertA d fname content) }
  | none => fs

/-- Read CERTS_DIR / n / fname. -/
def readFileIn (fs : FS) (n fname : String) : Option String :=
  (lookupA fs.dirs n).bind (fun d => lookupA d fname)

/-- shutil.rmtree on CERTS_DIR / n. -/
def rmtree (fs : FS) (n : String) : FS :=
  { fs with dirs := eraseA fs.dirs n }

/-- Path.rename: move subdirectory src to dst (a no-op when src is
missing; the caller checks existence first). -/
def renameDir (fs : FS) (src dst : String) : FS :=
  match lookupA fs.dirs src with
  | some d => { fs with dirs := insertA (eraseA fs.dirs src) dst d }
  | none => fs

/-- run_step_command builds the argv: the step binary followed by the
given arguments.  The process result itself is supplied by the
environment of the calling operation. -/
def run_step_command (args : List String) : List String :=
  "step" :: args

/-- Health-report dictionary returned by get_ca_health. -/
structure Health where
  status : String
  message : String
  deriving DecidableEq, Repr

/-- get_ca_health.  The environment is the outcome of the single
subprocess invocation: Except.error e models a raised exception with
str(e) = e, Except.ok r the completed process. -/
def get_ca_health (env : Except String ProcResult) : Health :=
  match env with
  | Except.error e => { status := "error", message := e }
  | Except.ok r =>
    if r.returncode = 0 then
      { status := "healthy", message := "CA is running" }
    else
      { status := "unhealthy", message := r.stderr }

/-- str(cert_file) for a common name. -/
def certPath (common_name : String) : String :=
  CERTS_DIR ++ "/" ++ common_name ++ "/" ++ common_name ++ ".crt"

/-- str(key_file) for a common name. -/
def keyPath (common_name : String) : String :=
  CERTS_DIR ++ "/" ++ common_name ++ "/" ++ common_name ++ ".key"

/-- The SAN loop of issue_certificate: for each san whose strip() is
non-empty, cmd.extend(["--san", san.strip()]). -/
def addSans (cmd : List String) : List String → List String
  | [] => cmd
  | san :: rest =>
    if pyStrip san = "" then addSans cmd rest
    else addSans (cmd ++ ["--san", pyStrip san]) rest

/-- Environment for one issue_certificate call: the step process
result, and the PEM texts the external tool writes to cert_file and
key_file when it exits with code 0. -/
structure IssueEnv where
  res : ProcResult
  certPem : String
  keyPem : String
  deriving DecidableEq, Repr

/-- issue_certificate.  Returns ((success, message, files dict),
final file system, trace of external commands invoked).  The error
text of a failed open(...) follows CPython's FileNotFoundError. -/
def issue_certificate (common_name cert_type : String) (validity_days : Int)
    (sans : List String) (env : IssueEnv) (fs : FS) :
    (Bool × String × List (String × String)) × FS × List (List String) :=
  let fs1 := mkdirExistOk fs common_name
  let cmd0 : List String :=
    ["ca", "certificate", common_name, certPath common_name, keyPath common_name,
     "--ca-url", STEP_CA_URL,
     "--root", STEP_CA_ROOT,
     "--not-after", toString (validity_days * 24) ++ "h",
     "--provisioner", "iot-devices",
     "--provisioner-password-file", PROVISIONER_PASSWORD_FILE,
     "--force"]
  let cmd := if sans.isEmpty then cmd0 else addSans cmd0 sans
  let trace := [run_step_command cmd]
  if env.res.returncode = 0 then
    let fs2 := writeFileIn (writeFileIn fs1 common_name (common_name ++ ".crt") env.certPem)
      common_name (common_name ++ ".key") env.keyPem
    match readFileIn fs2 common_name (common_name ++ ".crt") with
    | none =>
      ((false, "Error reading files: [Errno 2] No such file or directory: '" ++
        certPath common_name ++ "'", []), fs2, trace)
    | some certTxt =>
      match readFileIn fs2 common_name (common_name ++ ".key") with
      | none =>
        ((false, "Error reading files: [Errno 2] No such file or directory: '" ++
          keyPath common_name ++ "'", []), fs2, trace)
      | some keyTxt =>
        match fs2.caBundle with
        | none =>
          ((false, "Error reading files: [Errno 2] No such file or directory: '" ++
            CA_BUNDLE ++ "'", []), fs2, trace)
        | some caTxt =>
          ((true, "Certificate issued successfully",
            [("cert", certTxt), ("key", keyTxt), ("ca", caTxt)]), fs2, trace)
  else
    ((false, "Error: " ++ env.res.stderr, []), fs1, trace)

/-- The fields the x509 library extracts from a parsed certificate, as
the strings list_certificates formats them to (issued, expires,
serial, and the Active/Expired status computed from the clock). -/
structure ParseInfo where
  issued : String
  expires : String
  serial : String
  status : String
  deriving DecidableEq, Repr

/-- One row of the listing. -/
structure CertEntry where
  cn : String
  issued : String
  expires : String
  serial : String
  status : String
  deriving DecidableEq, Repr

/-- The try/except body of list_certificates for one directory: parse
the certificate bytes; on an exception produce the Unknown row. -/
def mkEntry (parse : String → Except String ParseInfo)
    (name data : String) : CertEntry :=
  match parse data with
  | Except.ok i =>
    { cn := name, issued := i.issued, expires := i.expires,
      serial := i.serial, status := i.status }
  | Except.error e =>
    { cn := name, issued := "Unknown", expires := "Unknown",
      serial := "Unknown", status := "Error: " ++ e }

/-- The directory loop of list_certificates: a row per subdirectory
that contains a file named exactly (directory name) ++ ".crt". -/
def listEntries (parse : String → Except String ParseInfo) :
    List (String × Dir) → List CertEntry
  | [] => []
  | (name, files) :: rest =>
    match lookupA files (name ++ ".crt") with
    | some data => mkEntry parse name data :: listEntries parse rest
    | none => listEntries parse rest

/-- Stable insertion for the sort by common name. -/
def insertByCn (e : CertEntry) : List CertEntry → List CertEntry
  | [] => [e]
  | x :: xs => if e.cn < x.cn then e :: x :: xs else x :: insertByCn e xs

/-- sorted(certs, key=cn): stable ascending sort by common name. -/
def sortByCn (l : List CertEntry) : List CertEntry :=
  l.foldl (fun acc e => insertByCn e acc) []

/-- list_certificates.  The x509 parser is external (the cryptography
library), so it enters as an oracle; the second component is the trace
of external step commands invoked (the function invokes none). -/
def list_certificates (parse : String → Except String ParseInfo) (fs : FS) :
    List CertEntry × List (List String) :=
  (sortByCn (listEntries parse fs.dirs), [])

/-- Environment for one revoke_certificate call: the results of the
token and revoke subprocess invocations, and whether the final
Path.rename raises (the source swallows that exception). -/
structure RevokeEnv where
  tokenRes : ProcResult
  revokeRes : ProcResult
  renameRaises : Bool
  deriving DecidableEq, Repr

/-- already_revoked: "already revoked" in result.stderr.lower(). -/
def alreadyRevokedFlag (env : RevokeEnv) : Bool :=
  hasSub (pyLower env.revokeRes.stderr).data "already revoked".data

/-- revoke_certificate.  Returns ((success, message), final file
system, trace of external commands invoked). -/
def revoke_certificate (common_name serial : String) (env : RevokeEnv)
    (fs : FS) : (Bool × String) × FS × List (List String) :=
  if (readFileIn fs common_name (common_name ++ ".crt")).isSome then
    let token_cmd : List String :=
      ["ca", "token", serial, "--revoke",
       "--ca-url", STEP_CA_URL,
       "--root", STEP_CA_ROOT,
       "--provisioner", "iot-devices",
       "--provisioner-password-file", PROVISIONER_PASSWORD_FILE]
    if env.tokenRes.returncode ≠ 0 then
      ((false, "Failed to generate revocation token: " ++ env.tokenRes.stderr),
       fs, [run_step_command token_cmd])
    else
      let token := pyStrip env.tokenRes.stdout
      let revoke_cmd : List String :=
        ["ca", "revoke", serial,
         "--ca-url", STEP_CA_URL,
         "--root", STEP_CA_ROOT,
         "--token", token]
      let trace := [run_step_command token_cmd, run_step_command revoke_cmd]
      if env.revokeRes.returncode = 0 || alreadyRevokedFlag env then
        let revoked_name := common_name ++ ".revoked"
        let fs1 := if dirExists fs revoked_name then rmtree fs revoked_name else fs
        let fs2 := if env.renameRaises then fs1
          else renameDir fs1 common_name revoked_name
        if alreadyRevokedFlag env then
          ((true, "Certificate was already revoked. Cleaned up local files."),
           fs2, trace)
        else
          ((true, "Certificate revoked successfully"), fs2, trace)
      else
        ((false, "Error: " ++ env.revokeRes.stderr), fs, trace)
  else
    ((false, "Certificate file not found"), fs, [])

/-- One user-driven operation on the certificate store. -/
inductive Op where
  | issue (cn ct : String) (validity : Int) (sans : List String) (env : IssueEnv)
  | revoke (cn serial : String) (env : RevokeEnv)

/-- The common name an operation acts on. -/
def opName : Op → String
  | Op.issue cn _ _ _ _ => cn
  | Op.revoke cn _ _ => cn

/-- Is this operation an issuance of the given common name? -/
def isIssue (cn : String) : Op → Bool
  | Op.issue m _ _ _ _ => m == cn
  | Op.revoke _ _ _ => false

/-- The file-system effect of one operation. -/
def applyOp (fs : FS) : Op → FS
  | Op.issue cn ct v sans env => (issue_certificate cn ct v sans env fs).2.1
  | Op.revoke cn serial env => (revoke_certificate cn serial env fs).2.1

/-- Run a sequence of operations left to right. -/
def runOps (fs : FS) (ops : List Op) : FS :=
  ops.foldl applyOp fs

/-- The certs directory right after start-up: no subdirectories. -/
def emptyFS : FS :=
  { dirs := [], caBundle := some "CA-BUNDLE-PEM" }

/-- The two-state condition of the spec for one common name: exactly
one of CERTS_DIR/cn and CERTS_DIR/cn.revoked exists. -/
def goodState (fs : FS) (cn : String) : Prop :=
  (dirExists fs cn = true ∧ dirExists fs (cn ++ ".revoked") = false) ∨
  (dirExists fs cn = false ∧ dirExists fs (cn ++ ".revoked") = true)

/-- The revocation-token argv the spec enumerates:
step ca token (serial) --revoke ... -/
def tokenArgv (serial : String) : List String :=
  ["step", "ca", "token", serial, "--revoke",
   "--ca-url", STEP_CA_URL,
   "--root", STEP_CA_ROOT,
   "--provisioner", "iot-devices",
   "--provisioner-password-file", PROVISIONER_PASSWORD_FILE]

/-- The revoke argv the spec enumerates:
step ca revoke (serial) ... --token (token). -/
def revokeArgv (serial token : String) : List String :=
  ["step", "ca", "revoke", serial,
   "--ca-url", STEP_CA_URL,
   "--root", STEP_CA_ROOT,
   "--token", token]

/-- A one-certificate store used as concrete input below. -/
def sampleStore : FS :=
  { dirs := [("dev1", [("dev1.crt", "PEM")])], caBundle := some "CAB" }

/-- A token invocation that exits 0 printing the token. -/
def okTokenRes : ProcResult :=
  { returncode := 0, stdout := "TOK", stderr := "" }

/-- A revoke invocation that exits 0. -/
def okRevokeRes : ProcResult :=
  { returncode := 0, stdout := "", stderr := "" }

/-- A revoke invocation that fails because the certificate was
already revoked (note the mixed case in stderr). -/
def alreadyRevokedRes : ProcResult :=
  { returncode := 1, stdout := "",
    stderr := "cannot revoke: certificate is Already REVOKED" }

/-- An issuance whose step invocation exits 0 and writes these PEMs. -/
def okIssueEnv : IssueEnv :=
  { res := { returncode := 0, stdout := "", stderr := "" },
    certPem := "CPEM", keyPem := "KPEM" }

/-! ### Association-list lemmas -/

theorem lookupA_eraseA_self {α : Type} (l : List (String × α)) (k : String) :
    lookupA (eraseA l k) k = none := by
  induction l with
  | nil => rfl
  | cons p rest ih =>
    obtain ⟨a, v⟩ := p
    by_cases h : a = k <;> simp [eraseA, lookupA, h, ih]

theorem lookupA_eraseA_ne {α : Type} (l : List (String × α)) (k n : String)
    (h : n ≠ k) : lookupA (eraseA l k) n = lookupA l n := by
  induction l with
  | nil => rfl
  | cons p rest ih =>
    obtain ⟨a, v⟩ := p
    by_cases ha : a = k
    · subst ha
      simp [eraseA, lookupA, Ne.symm h, ih]
    · by_cases hn : a = n <;> simp [eraseA, lookupA, ha, hn, h, ih]

theorem lookupA_insertA_self {α : Type} (l : List (String × α)) (k : String)
    (v : α) : lookupA (insertA l k v) k = some v := by
  simp [insertA, lookupA]

theorem lookupA_insertA_ne {α : Type} (l : List (String × α)) (k n : String)
    (v : α) (h : n ≠ k) : lookupA (insertA l k v) n = lookupA l n := by
  simp [insertA, lookupA, Ne.symm h, lookupA_eraseA_ne l k n h]

theorem mem_eraseA {α : Type} {p : String × α} {l : List (String × α)}
    {k : String} (h : p ∈ eraseA l k) : p ∈ l ∧ p.1 ≠ k := by
  induction l with
  | nil => simp [eraseA] at h
  | cons q rest ih =>
    obtain ⟨a, v⟩ := q
    by_cases ha : a = k
    · simp only [eraseA, if_pos ha] at h
      exact ⟨List.mem_cons_of_mem _ (ih h).1, (ih h).2⟩
    · simp only [eraseA, if_neg ha] at h
      rcases List.mem_cons.mp h with heq | hmem
      · subst heq
        exact ⟨List.mem_cons_self _ _, ha⟩
      · exact ⟨List.mem_cons_of_mem _ (ih hmem).1, (ih hmem).2⟩

/-! ### String lemmas -/

theorem beginsWith_append (x y : List Char) : beginsWith (x ++ y) x = true := by
  induction x with
  | nil => cases y <;> rfl
  | cons a as ih => simp [beginsWith, ih]

theorem endsRevoked_append (s : String) : endsRevoked (s ++ ".revoked") = true := by
  simp only [endsRevoked, hasSuffix, String.data_append, List.reverse_append]
  exact beginsWith_append _ _

theorem append_revoked_inj {a b : String} (h : a ++ ".revoked" = b ++ ".revoked") :
    a = b := by
  have hd : a.data ++ ".revoked".data = b.data ++ ".revoked".data := by
    have := congrArg String.data h
    simpa [String.data_append] using this
  exact String.ext (List.append_cancel_right hd)

theorem ne_append_revoked_of_not_endsRevoked {a b : String}
    (h : endsRevoked a = false) : a ≠ b ++ ".revoked" := by
  intro heq
  rw [heq, endsRevoked_append] at h
  cases h

theorem self_ne_append_revoked (a : String) : a ≠ a ++ ".revoked" := by
  intro h
  have := congrArg (fun t => t.data.length) h
  simp [String.data_append] at this

theorem append_suffix_ne {a : String} (s t : String) (h : s ≠ t) :
    a ++ s ≠ a ++ t := by
  intro heq
  have hd : a.data ++ s.data = a.data ++ t.data := by
    have := congrArg String.data heq
    simpa [String.data_append] using this
  exact h (String.ext (List.append_cancel_left hd))

theorem crt_ne_key (a : String) : a ++ ".crt" ≠ a ++ ".key" := by
  refine append_suffix_ne _ _ ?_
  intro h
  have := congrArg String.data h
  simp at this

/-! ### File-system effect lemmas -/

theorem dirExists_mkdir_self (fs : FS) (n : String) :
    dirExists (mkdirExistOk fs n) n = true := by
  unfold mkdirExistOk
  cases h : lookupA fs.dirs n with
  | some d => simp [dirExists, h]
  | none => simp [dirExists, lookupA_insertA_self]

theorem dirExists_mkdir_ne (fs : FS) (k n : String) (h : n ≠ k) :
    dirExists (mkdirExistOk fs k) n = dirExists fs n := by
  unfold mkdirExistOk
  cases hk : lookupA fs.dirs k with
  | some d => rfl
  | none => simp [dirExists, lookupA_insertA_ne _ _ _ _ h]

theorem dirExists_writeFileIn (fs : FS) (k f c n : String) :
    dirExists (writeFileIn fs k f c) n = dirExists fs n := by
  unfold writeFileIn
  cases hk : lookupA fs.dirs k with
  | some d =>
    by_cases hn : n = k
    · subst hn
      simp [dirExists, lookupA_insertA_self, hk]
    · simp [dirExists, lookupA_insertA_ne _ _ _ _ hn]
  | none => rfl

theorem dirExists_rmtree_self (fs : FS) (k : String) :
    dirExists (rmtree fs k) k = false := by
  simp [rmtree, dirExists, lookupA_eraseA_self]

theorem dirExists_rmtree_ne (fs : FS) (k n : String) (h : n ≠ k) :
    dirExists (rmtree fs k) n = dirExists fs n := by
  simp [rmtree, dirExists, lookupA_eraseA_ne _ _ _ h]

theorem dirExists_rename_dst (fs : FS) (src dst : String)
    (h : dirExists fs src = true) :
    dirExists (renameDir fs src dst) dst = true := by
  unfold renameDir
  cases hk : lookupA fs.dirs src with
  | some d => simp [dirExists, lookupA_insertA_self]
  | none => simp [dirExists, hk] at h

theorem dirExists_rename_src (fs : FS) (src dst : String) (h : src ≠ dst) :
    dirExists (renameDir fs src dst) src = false := by
  unfold renameDir
  cases hk : lookupA fs.dirs src with
  | some d =>
    simp [dirExists, lookupA_insertA_ne _ _ _ _ h, lookupA_eraseA_self]
  | none => simp [dirExists, hk]

theorem dirExists_rename_other (fs : FS) (src dst n : String)
    (h1 : n ≠ src) (h2 : n ≠ dst) :
    dirExists (renameDir fs src dst) n = dirExists fs n := by
  unfold renameDir
  cases hk : lookupA fs.dirs src with
  | some d =>
    simp [dirExists, lookupA_insertA_ne _ _ _ _ h2,
      lookupA_eraseA_ne _ _ _ h1]
  | none => rfl


/-! ### Characterisation of each operation on the file system -/

theorem issue_fs_spec (cn ct : String) (v : Int) (sans : List String)
    (env : IssueEnv) (fs : FS) :
    (issue_certificate cn ct v sans env fs).2.1 =
      if env.res.returncode = 0 then
        writeFileIn (writeFileIn (mkdirExistOk fs cn) cn (cn ++ ".crt") env.certPem)
          cn (cn ++ ".key") env.keyPem
      else mkdirExistOk fs cn := by
  unfold issue_certificate
  by_cases h : env.res.returncode = 0
  · simp only [if_pos h]
    split <;> try rfl
    split <;> try rfl
    split <;> rfl
  · simp only [if_neg h]

theorem revoke_fs_spec (cn serial : String) (env : RevokeEnv) (fs : FS) :
    (revoke_certificate cn serial env fs).2.1 =
      if (readFileIn fs cn (cn ++ ".crt")).isSome then
        if env.tokenRes.returncode ≠ 0 then fs
        else if env.revokeRes.returncode = 0 || alreadyRevokedFlag env then
          (if env.renameRaises then
            (if dirExists fs (cn ++ ".revoked") then rmtree fs (cn ++ ".revoked") else fs)
          else
            renameDir
              (if dirExists fs (cn ++ ".revoked") then rmtree fs (cn ++ ".revoked") else fs)
              cn (cn ++ ".revoked"))
        else fs
      else fs := by
  unfold revoke_certificate
  split <;> try rfl
  split <;> try rfl
  simp only [if_neg (by assumption : ¬env.tokenRes.returncode ≠ 0)]
  split <;> try rfl
  split <;> rfl

/-! ### The SAN loop -/

theorem addSans_eq (l : List String) (cmd : List String) :
    addSans cmd l =
      cmd ++ l.flatMap (fun s => if pyStrip s = "" then [] else ["--san", pyStrip s]) := by
  induction l generalizing cmd with
  | nil => simp [addSans]
  | cons s rest ih =>
    by_cases h : pyStrip s = "" <;>
      simp [addSans, h, ih, List.append_assoc]

/-! ### Listing lemmas -/

theorem mkEntry_cn (parse : String → Except String ParseInfo)
    (name data : String) : (mkEntry parse name data).cn = name := by
  unfold mkEntry
  cases parse data <;> rfl

theorem mem_insertByCn {e x : CertEntry} {l : List CertEntry} :
    x ∈ insertByCn e l ↔ x = e ∨ x ∈ l := by
  induction l with
  | nil => simp [insertByCn]
  | cons a as ih =>
    unfold insertByCn
    split
    · simp [or_comm, or_left_comm]
    · simp only [List.mem_cons, ih]
      tauto

theorem mem_foldl_insertByCn (l : List CertEntry) :
    ∀ acc x, x ∈ l.foldl (fun acc e => insertByCn e acc) acc ↔ x ∈ acc ∨ x ∈ l := by
  induction l with
  | nil => simp
  | cons a as ih =>
    intro acc x
    simp only [List.foldl_cons, ih, mem_insertByCn, List.mem_cons]
    tauto

theorem mem_sortByCn {l : List CertEntry} {x : CertEntry} :
    x ∈ sortByCn l ↔ x ∈ l := by
  simp [sortByCn, mem_foldl_insertByCn]

theorem mem_listEntries {parse : String → Except String ParseInfo}
    {ds : List (String × Dir)} {e : CertEntry} (h : e ∈ listEntries parse ds) :
    ∃ d, (e.cn, d) ∈ ds ∧ (lookupA d (e.cn ++ ".crt")).isSome = true := by
  induction ds with
  | nil => simp [listEntries] at h
  | cons p rest ih =>
    obtain ⟨name, files⟩ := p
    unfold listEntries at h
    cases hf : lookupA files (name ++ ".crt") with
    | some data =>
      rw [hf] at h
      rcases List.mem_cons.mp h with heq | hmem
      · refine ⟨files, ?_, ?_⟩
        · subst heq
          rw [mkEntry_cn]
          exact List.mem_cons_self _ _
        · subst heq
          rw [mkEntry_cn, hf]
          rfl
      · obtain ⟨d, hd, hsome⟩ := ih hmem
        exact ⟨d, List.mem_cons_of_mem _ hd, hsome⟩
    | none =>
      rw [hf] at h
      obtain ⟨d, hd, hsome⟩ := ih h
      exact ⟨d, List.mem_cons_of_mem _ hd, hsome⟩

/-- The guarded SAN loop (if sans: for san in sans: ...) appends one
"--san" pair per entry with non-empty strip, in order. -/
theorem sanCmd_eq (cmd : List String) (l : List String) :
    (if l.isEmpty then cmd else addSans cmd l) =
      cmd ++ l.flatMap (fun s => if pyStrip s = "" then [] else ["--san", pyStrip s]) := by
  cases l with
  | nil => simp
  | cons s rest => simp [addSans_eq]

/-- Claim C7: get_ca_health returns status "healthy" iff the step ca
health subprocess exits with code 0; on a nonzero exit code it returns
status "unhealthy" with the subprocess stderr as the message; and when
the invocation raises, it returns status "error" with the exception
text. -/
theorem c7_health_classified_by_exit (env : Except String ProcResult) :
    ((get_ca_health env).status = "healthy" ↔
      ∃ r, env = Except.ok r ∧ r.returncode = 0) ∧
    (∀ r, env = Except.ok r → r.returncode ≠ 0 →
      get_ca_health env = { status := "unhealthy", message := r.stderr }) ∧
    (∀ e, env = Except.error e →
      get_ca_health env = { status := "error", message := e }) := by
  cases env with
  | error e =>
    refine ⟨?_, ?_, ?_⟩
    · constructor
      · intro hst
        exact absurd hst (by simp [get_ca_health])
      · rintro ⟨r, heq, _⟩
        cases heq
    · intro r heq
      cases heq
    · intro e' heq
      cases heq
      rfl
  | ok r =>
    refine ⟨?_, ?_, ?_⟩
    · by_cases h0 : r.returncode = 0
      · exact iff_of_true (by simp [get_ca_health, h0]) ⟨r, rfl, h0⟩
      · constructor
        · intro hst
          exact absurd hst (by simp [get_ca_health, h0])
        · rintro ⟨r', heq, h0'⟩
          cases heq
          exact absurd h0' h0
    · intro r' heq hne
      cases heq
      simp [get_ca_health, hne]
    · intro e heq
      cases heq

/-- Witness for C7 at concrete environments. -/
theorem c7_health_classified_by_exit_wit :
    (get_ca_health (Except.ok { returncode := 0, stdout := "ok", stderr := "" })).status
      = "healthy" ∧
    get_ca_health (Except.ok { returncode := 1, stdout := "", stderr := "connection refused" })
      = { status := "unhealthy", message := "connection refused" } ∧
    get_ca_health (Except.error "step binary not found")
      = { status := "error", message := "step binary not found" } := by
  refine ⟨?_, ?_, ?_⟩
  · exact (c7_health_classified_by_exit
      (Except.ok { returncode := 0, stdout := "ok", stderr := "" })).1.mpr
      ⟨{ returncode := 0, stdout := "ok", stderr := "" }, rfl, rfl⟩
  · exact (c7_health_classified_by_exit
      (Except.ok { returncode := 1, stdout := "", stderr := "connection refused" })).2.1
      { returncode := 1, stdout := "", stderr := "connection refused" } rfl (by decide)
  · exact (c7_health_classified_by_exit
      (Except.error "step binary not found")).2.2 "step binary not found" rfl

/-- Claim C10: the cert_type argument has no effect on issuance: the
command, the returned triple and the file-system effect are identical
for any two cert_type values (the parameter is never read). -/
theorem c10_cert_type_no_effect (cn ct1 ct2 : String) (v : Int)
    (sans : List String) (env : IssueEnv) (fs : FS) :
    issue_certificate cn ct1 v sans env fs = issue_certificate cn ct2 v sans env fs :=
  rfl

/-- Claim C4: issue_certificate invokes exactly the command
step ca certificate (cn) (CERTS_DIR/cn/cn.crt) (CERTS_DIR/cn/cn.key)
--ca-url ... --root ... --not-after (validity*24)h --provisioner
iot-devices --provisioner-password-file ... --force, followed by one
"--san s" pair per SAN entry s with non-blank strip, in order. -/
theorem c4_issue_command_exact (cn ct : String) (v : Int) (sans : List String)
    (env : IssueEnv) (fs : FS) :
    (issue_certificate cn ct v sans env fs).2.2 =
      [["step", "ca", "certificate", cn, certPath cn, keyPath cn,
        "--ca-url", STEP_CA_URL,
        "--root", STEP_CA_ROOT,
        "--not-after", toString (v * 24) ++ "h",
        "--provisioner", "iot-devices",
        "--provisioner-password-file", PROVISIONER_PASSWORD_FILE,
        "--force"] ++
        sans.flatMap (fun s => if pyStrip s = "" then [] else ["--san", pyStrip s])] := by
  simp only [issue_certificate, sanCmd_eq, run_step_command]
  by_cases h : env.res.returncode = 0
  · simp only [if_pos h]
    split
    · rfl
    · split
      · rfl
      · split <;> rfl
  · simp only [if_neg h]
    rfl

/-- Claim C1: when the certificate file exists, revoke_certificate
first invokes step ca token (serial) --revoke ...; if that exits
nonzero it returns failure carrying the token command's stderr and
issues no further command; if it exits 0 the trace is exactly the
token command followed by step ca revoke (serial) --token (token). -/
theorem c1_revoke_two_step_token_flow (cn serial : String) (env : RevokeEnv)
    (fs : FS) (hcert : (readFileIn fs cn (cn ++ ".crt")).isSome = true) :
    (revoke_certificate cn serial env fs).2.2.head? = some (tokenArgv serial) ∧
    (env.tokenRes.returncode ≠ 0 →
      (revoke_certificate cn serial env fs).1 =
        (false, "Failed to generate revocation token: " ++ env.tokenRes.stderr) ∧
      (revoke_certificate cn serial env fs).2.2 = [tokenArgv serial]) ∧
    (env.tokenRes.returncode = 0 →
      (revoke_certificate cn serial env fs).2.2 =
        [tokenArgv serial, revokeArgv serial (pyStrip env.tokenRes.stdout)]) := by
  simp only [revoke_certificate]
  rw [if_pos hcert]
  by_cases ht : env.tokenRes.returncode = 0
  · rw [if_neg (fun hcontra => hcontra ht)]
    refine ⟨?_, ?_, ?_⟩
    · split
      · split <;> rfl
      · rfl
    · intro h
      exact absurd ht h
    · intro _
      split
      · split <;> rfl
      · rfl
  · rw [if_pos ht]
    exact ⟨rfl, fun _ => ⟨rfl, rfl⟩, fun h0 => absurd h0 ht⟩

/-- Witness for C1: the failure leg at a concrete store and a failing
token invocation, and the success leg at an exiting-0 one. -/
theorem c1_revoke_two_step_token_flow_wit :
    (revoke_certificate "dev1" "1234"
        { tokenRes := { returncode := 1, stdout := "", stderr := "boom" },
          revokeRes := { returncode := 0, stdout := "", stderr := "" },
          renameRaises := false }
        { dirs := [("dev1", [("dev1.crt", "PEM")])], caBundle := some "CAB" }).1 =
      (false, "Failed to generate revocation token: boom") ∧
    (revoke_certificate "dev1" "1234"
        { tokenRes := { returncode := 1, stdout := "", stderr := "boom" },
          revokeRes := { returncode := 0, stdout := "", stderr := "" },
          renameRaises := false }
        { dirs := [("dev1", [("dev1.crt", "PEM")])], caBundle := some "CAB" }).2.2 =
      [tokenArgv "1234"] ∧
    (revoke_certificate "dev1" "1234"
        { tokenRes := { returncode := 0, stdout := " TOK \n", stderr := "" },
          revokeRes := { returncode := 0, stdout := "", stderr := "" },
          renameRaises := false }
        { dirs := [("dev1", [("dev1.crt", "PEM")])], caBundle := some "CAB" }).2.2 =
      [tokenArgv "1234", revokeArgv "1234" "TOK"] := by
  have hfail := c1_revoke_two_step_token_flow "dev1" "1234"
    { tokenRes := { returncode := 1, stdout := "", stderr := "boom" },
      revokeRes := { returncode := 0, stdout := "", stderr := "" },
      renameRaises := false }
    { dirs := [("dev1", [("dev1.crt", "PEM")])], caBundle := some "CAB" }
    (by decide)
  have hok := c1_revoke_two_step_token_flow "dev1" "1234"
    { tokenRes := { returncode := 0, stdout := " TOK \n", stderr := "" },
      revokeRes := { returncode := 0, stdout := "", stderr := "" },
      renameRaises := false }
    { dirs := [("dev1", [("dev1.crt", "PEM")])], caBundle := some "CAB" }
    (by decide)
  refine ⟨(hfail.2.1 (by decide)).1, (hfail.2.1 (by decide)).2, ?_⟩
  have h3 := hok.2.2 rfl
  rwa [show pyStrip " TOK \n" = "TOK" from by decide] at h3

/-! ### File-content lemmas -/

theorem dirExists_of_readFileIn {fs : FS} {n f : String}
    (h : (readFileIn fs n f).isSome = true) : dirExists fs n = true := by
  unfold readFileIn at h
  unfold dirExists
  cases hl : lookupA fs.dirs n with
  | none => rw [hl] at h; cases h
  | some d => rfl

theorem readFileIn_writeFileIn_self (fs : FS) (k f c : String)
    (h : dirExists fs k = true) :
    readFileIn (writeFileIn fs k f c) k f = some c := by
  unfold writeFileIn
  cases hl : lookupA fs.dirs k with
  | none => simp [dirExists, hl] at h
  | some d =>
    unfold readFileIn
    simp [lookupA_insertA_self]

theorem readFileIn_writeFileIn_other (fs : FS) (k f c f' : String)
    (hne : f' ≠ f) :
    readFileIn (writeFileIn fs k f c) k f' = readFileIn fs k f' := by
  unfold writeFileIn
  cases hl : lookupA fs.dirs k with
  | none => rfl
  | some d =>
    unfold readFileIn
    simp [lookupA_insertA_self, hl, lookupA_insertA_ne _ _ _ _ hne]

theorem caBundle_writeFileIn (fs : FS) (k f c : String) :
    (writeFileIn fs k f c).caBundle = fs.caBundle := by
  unfold writeFileIn
  cases lookupA fs.dirs k <;> rfl

theorem caBundle_mkdirExistOk (fs : FS) (k : String) :
    (mkdirExistOk fs k).caBundle = fs.caBundle := by
  unfold mkdirExistOk
  cases lookupA fs.dirs k <;> rfl

/-- Counterexample to claim C2 as stated: a revoke that the CA accepts
(exit 0) but whose directory rename raises returns success while
CERTS_DIR/cn is still in place and CERTS_DIR/cn.revoked absent (the
source swallows the rename error and still reports success). -/
theorem c2_success_without_rename_cex :
    (revoke_certificate "dev1" "1234"
        { tokenRes := { returncode := 0, stdout := "TOK", stderr := "" },
          revokeRes := { returncode := 0, stdout := "", stderr := "" },
          renameRaises := true }
        { dirs := [("dev1", [("dev1.crt", "PEM")])], caBundle := some "CAB" }).1.1 = true ∧
    dirExists (revoke_certificate "dev1" "1234"
        { tokenRes := { returncode := 0, stdout := "TOK", stderr := "" },
          revokeRes := { returncode := 0, stdout := "", stderr := "" },
          renameRaises := true }
        { dirs := [("dev1", [("dev1.crt", "PEM")])], caBundle := some "CAB" }).2.1 "dev1" = true ∧
    dirExists (revoke_certificate "dev1" "1234"
        { tokenRes := { returncode := 0, stdout := "TOK", stderr := "" },
          revokeRes := { returncode := 0, stdout := "", stderr := "" },
          renameRaises := true }
        { dirs := [("dev1", [("dev1.crt", "PEM")])], caBundle := some "CAB" }).2.1 "dev1.revoked" = false := by
  decide

/-- Helper: a successful revoke with a non-raising rename leaves the
store with cn gone and cn.revoked present. -/
theorem revoke_success_renames (cn serial : String) (env : RevokeEnv)
    (fs : FS) (hren : env.renameRaises = false)
    (hsucc : (revoke_certificate cn serial env fs).1.1 = true) :
    dirExists (revoke_certificate cn serial env fs).2.1 cn = false ∧
    dirExists (revoke_certificate cn serial env fs).2.1 (cn ++ ".revoked") = true := by
  have hfs := revoke_fs_spec cn serial env fs
  by_cases hcert : (readFileIn fs cn (cn ++ ".crt")).isSome = true
  · by_cases ht : env.tokenRes.returncode = 0
    · by_cases hrev : (decide (env.revokeRes.returncode = 0) || alreadyRevokedFlag env) = true
      · rw [if_pos hcert, if_neg (fun hco => hco ht), if_pos hrev] at hfs
        have hnr : ¬ (env.renameRaises = true) := by
          rw [hren]
          exact Bool.false_ne_true
        rw [if_neg hnr] at hfs
        rw [hfs]
        constructor
        · exact dirExists_rename_src _ _ _ (self_ne_append_revoked cn)
        · apply dirExists_rename_dst
          have hdir : dirExists fs cn = true := dirExists_of_readFileIn hcert
          by_cases hrv : dirExists fs (cn ++ ".revoked") = true
          · rw [if_pos hrv,
              dirExists_rmtree_ne _ _ _ (self_ne_append_revoked cn)]
            exact hdir
          · rw [if_neg hrv]
            exact hdir
      · exfalso
        have hres : (revoke_certificate cn serial env fs).1.1 = false := by
          simp only [revoke_certificate]
          rw [if_pos hcert, if_neg (fun hco => hco ht), if_neg hrev]
        rw [hres] at hsucc
        exact Bool.false_ne_true hsucc
    · exfalso
      have hres : (revoke_certificate cn serial env fs).1.1 = false := by
        simp only [revoke_certificate]
        rw [if_pos hcert, if_pos ht]
      rw [hres] at hsucc
      exact Bool.false_ne_true hsucc
  · exfalso
    have hres : (revoke_certificate cn serial env fs).1.1 = false := by
      simp only [revoke_certificate]
      rw [if_neg hcert]
    rw [hres] at hsucc
    exact Bool.false_ne_true hsucc

/-- Claim C2 amended: whenever revoke_certificate returns success and
the directory rename does not raise, CERTS_DIR/cn has been renamed to
CERTS_DIR/cn.revoked (cn gone, cn.revoked present); when the rename
raises, the source swallows the error and still reports success with
the directory left in place (see the counterexample). -/
theorem c2_rename_marks_revocation (cn serial : String) (env : RevokeEnv)
    (fs : FS) (hren : env.renameRaises = false)
    (hsucc : (revoke_certificate cn serial env fs).1.1 = true) :
    dirExists (revoke_certificate cn serial env fs).2.1 cn = false ∧
    dirExists (revoke_certificate cn serial env fs).2.1 (cn ++ ".revoked") = true :=
  revoke_success_renames cn serial env fs hren hsucc

/-- Witness for the amended C2 at a concrete store. -/
theorem c2_rename_marks_revocation_wit :
    dirExists (revoke_certificate "dev1" "1234"
        { tokenRes := { returncode := 0, stdout := "TOK", stderr := "" },
          revokeRes := { returncode := 0, stdout := "", stderr := "" },
          renameRaises := false }
        { dirs := [("dev1", [("dev1.crt", "PEM")])], caBundle := some "CAB" }).2.1 "dev1" = false ∧
    dirExists (revoke_certificate "dev1" "1234"
        { tokenRes := { returncode := 0, stdout := "TOK", stderr := "" },
          revokeRes := { returncode := 0, stdout := "", stderr := "" },
          renameRaises := false }
        { dirs := [("dev1", [("dev1.crt", "PEM")])], caBundle := some "CAB" }).2.1 ("dev1" ++ ".revoked") = true :=
  c2_rename_marks_revocation "dev1" "1234"
    { tokenRes := { returncode := 0, stdout := "TOK", stderr := "" },
      revokeRes := { returncode := 0, stdout := "", stderr := "" },
      renameRaises := false }
    { dirs := [("dev1", [("dev1.crt", "PEM")])], caBundle := some "CAB" }
    rfl (by decide)

/-- Counterexample to claim C9 as stated: with a nonzero revoke exit
whose stderr contains "already revoked" (case-insensitively) but a
raising rename, revoke_certificate returns the stated success message
yet no directory rename has been performed. -/
theorem c9_already_revoked_without_rename_cex :
    (revoke_certificate "dev1" "1234"
        { tokenRes := okTokenRes, revokeRes := alreadyRevokedRes, renameRaises := true }
        sampleStore).1 =
      (true, "Certificate was already revoked. Cleaned up local files.") ∧
    dirExists (revoke_certificate "dev1" "1234"
        { tokenRes := okTokenRes, revokeRes := alreadyRevokedRes, renameRaises := true }
        sampleStore).2.1 "dev1" = true ∧
    dirExists (revoke_certificate "dev1" "1234"
        { tokenRes := okTokenRes, revokeRes := alreadyRevokedRes, renameRaises := true }
        sampleStore).2.1 "dev1.revoked" = false := by
  decide

/-- Claim C9 amended: when the certificate file exists, the token step
exits 0, the revoke subprocess exits nonzero with stderr containing
"already revoked" (case-insensitive), and the rename does not raise,
revoke_certificate renames the directory to CERTS_DIR/cn.revoked and
returns success with the stated message; if the rename raises, the
same success pair is returned with the directory left in place. -/
theorem c9_already_revoked_success (cn serial : String) (env : RevokeEnv)
    (fs : FS) (hcert : (readFileIn fs cn (cn ++ ".crt")).isSome = true)
    (ht : env.tokenRes.returncode = 0)
    (hrc : env.revokeRes.returncode ≠ 0)
    (halready : alreadyRevokedFlag env = true)
    (hren : env.renameRaises = false) :
    (revoke_certificate cn serial env fs).1 =
      (true, "Certificate was already revoked. Cleaned up local files.") ∧
    dirExists (revoke_certificate cn serial env fs).2.1 cn = false ∧
    dirExists (revoke_certificate cn serial env fs).2.1 (cn ++ ".revoked") = true := by
  have hor : (decide (env.revokeRes.returncode = 0) || alreadyRevokedFlag env) = true := by
    rw [halready, Bool.or_true]
  have hres : (revoke_certificate cn serial env fs).1 =
      (true, "Certificate was already revoked. Cleaned up local files.") := by
    simp only [revoke_certificate]
    rw [if_pos hcert, if_neg (fun hco => hco ht), if_pos hor, if_pos halready]
  refine ⟨hres, ?_⟩
  exact revoke_success_renames cn serial env fs hren (by rw [hres])

/-- Witness for the amended C9 at a concrete store: the mixed-case
stderr "... Already REVOKED" still counts. -/
theorem c9_already_revoked_success_wit :
    (revoke_certificate "dev1" "1234"
        { tokenRes := okTokenRes, revokeRes := alreadyRevokedRes, renameRaises := false }
        sampleStore).1 =
      (true, "Certificate was already revoked. Cleaned up local files.") ∧
    dirExists (revoke_certificate "dev1" "1234"
        { tokenRes := okTokenRes, revokeRes := alreadyRevokedRes, renameRaises := false }
        sampleStore).2.1 "dev1" = false ∧
    dirExists (revoke_certificate "dev1" "1234"
        { tokenRes := okTokenRes, revokeRes := alreadyRevokedRes, renameRaises := false }
        sampleStore).2.1 ("dev1" ++ ".revoked") = true :=
  c9_already_revoked_success "dev1" "1234"
    { tokenRes := okTokenRes, revokeRes := alreadyRevokedRes, renameRaises := false }
    sampleStore (by decide) (by decide) (by decide) (by decide) rfl

/-- Counterexample to claim C6 as stated: after a successful issuance
into an empty store, CERTS_DIR/cn holds exactly the certificate and
the private key; no file in it carries the CA chain bytes.  The CA
chain is only read from the global CA_BUNDLE path into the returned
files dict. -/
theorem c6_ca_chain_not_in_dir_cex :
    (issue_certificate "dev1" "Client" 30 [] okIssueEnv emptyFS).1.1 = true ∧
    lookupA (issue_certificate "dev1" "Client" 30 [] okIssueEnv emptyFS).2.1.dirs "dev1" =
      some [("dev1.key", "KPEM"), ("dev1.crt", "CPEM")] ∧
    (∀ p ∈ [(("dev1.key" : String), ("KPEM" : String)), ("dev1.crt", "CPEM")],
      p.2 ≠ "CA-BUNDLE-PEM") ∧
    lookupA (issue_certificate "dev1" "Client" 30 [] okIssueEnv emptyFS).1.2.2 "ca" =
      some "CA-BUNDLE-PEM" := by
  decide

/-- Claim C6 amended: after a successful issuance, CERTS_DIR/cn
contains the issued certificate and the private key; the CA chain
bytes are read from the global CA_BUNDLE file and returned in the
files dict, not stored in the per-name directory. -/
theorem c6_dir_holds_cert_and_key (cn ct : String) (v : Int)
    (sans : List String) (env : IssueEnv) (fs : FS)
    (hsucc : (issue_certificate cn ct v sans env fs).1.1 = true) :
    readFileIn (issue_certificate cn ct v sans env fs).2.1 cn (cn ++ ".crt") =
      some env.certPem ∧
    readFileIn (issue_certificate cn ct v sans env fs).2.1 cn (cn ++ ".key") =
      some env.keyPem ∧
    lookupA (issue_certificate cn ct v sans env fs).1.2.2 "ca" = fs.caBundle := by
  by_cases h : env.res.returncode = 0
  case neg =>
    exfalso
    have hres : (issue_certificate cn ct v sans env fs).1.1 = false := by
      simp only [issue_certificate]
      rw [if_neg h]
    rw [hres] at hsucc
    exact Bool.false_ne_true hsucc
  case pos =>
    have hfs := issue_fs_spec cn ct v sans env fs
    rw [if_pos h] at hfs
    have hcrt0 : readFileIn
        (writeFileIn (writeFileIn (mkdirExistOk fs cn) cn (cn ++ ".crt") env.certPem)
          cn (cn ++ ".key") env.keyPem) cn (cn ++ ".crt") = some env.certPem := by
      rw [readFileIn_writeFileIn_other _ _ _ _ _ (crt_ne_key cn)]
      exact readFileIn_writeFileIn_self _ _ _ _ (dirExists_mkdir_self fs cn)
    have hkey0 : readFileIn
        (writeFileIn (writeFileIn (mkdirExistOk fs cn) cn (cn ++ ".crt") env.certPem)
          cn (cn ++ ".key") env.keyPem) cn (cn ++ ".key") = some env.keyPem := by
      apply readFileIn_writeFileIn_self
      rw [dirExists_writeFileIn]
      exact dirExists_mkdir_self fs cn
    have hcb0 : (writeFileIn (writeFileIn (mkdirExistOk fs cn) cn (cn ++ ".crt") env.certPem)
        cn (cn ++ ".key") env.keyPem).caBundle = fs.caBundle := by
      rw [caBundle_writeFileIn, caBundle_writeFileIn, caBundle_mkdirExistOk]
    refine ⟨?_, ?_, ?_⟩
    · rw [hfs]
      exact hcrt0
    · rw [hfs]
      exact hkey0
    · cases hcb : fs.caBundle with
      | none =>
        exfalso
        have hres : (issue_certificate cn ct v sans env fs).1.1 = false := by
          simp only [issue_certificate]
          rw [if_pos h]
          simp only [hcrt0, hkey0, hcb0, hcb]
        rw [hres] at hsucc
        exact Bool.false_ne_true hsucc
      | some b =>
        have hdict : (issue_certificate cn ct v sans env fs).1.2.2 =
            [("cert", env.certPem), ("key", env.keyPem), ("ca", b)] := by
          simp only [issue_certificate]
          rw [if_pos h]
          simp only [hcrt0, hkey0, hcb0, hcb]
        rw [hdict]
        simp [lookupA]

/-- Witness for the amended C6 at a concrete issuance. -/
theorem c6_dir_holds_cert_and_key_wit :
    readFileIn (issue_certificate "dev1" "Client" 30 [] okIssueEnv emptyFS).2.1
      "dev1" ("dev1" ++ ".crt") = some "CPEM" ∧
    readFileIn (issue_certificate "dev1" "Client" 30 [] okIssueEnv emptyFS).2.1
      "dev1" ("dev1" ++ ".key") = some "KPEM" ∧
    lookupA (issue_certificate "dev1" "Client" 30 [] okIssueEnv emptyFS).1.2.2 "ca" =
      emptyFS.caBundle :=
  c6_dir_holds_cert_and_key "dev1" "Client" 30 [] okIssueEnv emptyFS (by decide)

/-- Counterexample to claim C3 as stated: a call to list_certificates
that returns certificate information while its external-command trace
is empty — the listing never invokes the CA CLI; it reads the local
certs directory and parses the files with the x509 library. -/
theorem c3_listing_without_cli_cex :
    (list_certificates
        (fun _ => Except.ok
          { issued := "2026-01-01 00:00", expires := "2026-03-01 00:00",
            serial := "12345", status := "Active" }) sampleStore).2 = [] ∧
    (list_certificates
        (fun _ => Except.ok
          { issued := "2026-01-01 00:00", expires := "2026-03-01 00:00",
            serial := "12345", status := "Active" }) sampleStore).1 =
      [{ cn := "dev1", issued := "2026-01-01 00:00", expires := "2026-03-01 00:00",
         serial := "12345", status := "Active" }] := by
  decide

/-- Claim C3 amended: list_certificates obtains its information by
reading the local certs directory (every row comes from a subdirectory
that holds its own name ++ ".crt"), and invokes no external CLI
command at all. -/
theorem c3_listing_reads_local_dirs (parse : String → Except String ParseInfo)
    (fs : FS) :
    (list_certificates parse fs).2 = [] ∧
    ∀ e ∈ (list_certificates parse fs).1,
      ∃ d, (e.cn, d) ∈ fs.dirs ∧ (lookupA d (e.cn ++ ".crt")).isSome = true := by
  constructor
  · rfl
  · intro e he
    simp only [list_certificates] at he
    exact mem_listEntries (mem_sortByCn.mp he)

/-- Witness for the amended C3 at a concrete store (with a parser that
raises, exercising the Unknown row). -/
theorem c3_listing_reads_local_dirs_wit :
    (list_certificates (fun _ => Except.error "bad der") sampleStore).2 = [] ∧
    ∃ d, (("dev1" : String), d) ∈ sampleStore.dirs ∧
      (lookupA d ("dev1" ++ ".crt")).isSome = true := by
  have h := c3_listing_reads_local_dirs (fun _ => Except.error "bad der") sampleStore
  refine ⟨h.1, ?_⟩
  have he : CertEntry.mk "dev1" "Unknown" "Unknown" "Unknown" "Error: bad der" ∈
      (list_certificates (fun _ => Except.error "bad der") sampleStore).1 := by
    decide
  exact h.2 _ he

/-- All three tests a successful revoke must have passed. -/
theorem revoke_success_branch (cn serial : String) (env : RevokeEnv) (fs : FS)
    (hsucc : (revoke_certificate cn serial env fs).1.1 = true) :
    (readFileIn fs cn (cn ++ ".crt")).isSome = true ∧
    env.tokenRes.returncode = 0 ∧
    (decide (env.revokeRes.returncode = 0) || alreadyRevokedFlag env) = true := by
  by_cases hcert : (readFileIn fs cn (cn ++ ".crt")).isSome = true
  · by_cases ht : env.tokenRes.returncode = 0
    · by_cases hrev : (decide (env.revokeRes.returncode = 0) || alreadyRevokedFlag env) = true
      · exact ⟨hcert, ht, hrev⟩
      · exfalso
        have hres : (revoke_certificate cn serial env fs).1.1 = false := by
          simp only [revoke_certificate]
          rw [if_pos hcert, if_neg (fun hco => hco ht), if_neg hrev]
        rw [hres] at hsucc
        exact Bool.false_ne_true hsucc
    · exfalso
      have hres : (revoke_certificate cn serial env fs).1.1 = false := by
        simp only [revoke_certificate]
        rw [if_pos hcert, if_pos ht]
      rw [hres] at hsucc
      exact Bool.false_ne_true hsucc
  · exfalso
    have hres : (revoke_certificate cn serial env fs).1.1 = false := by
      simp only [revoke_certificate]
      rw [if_neg hcert]
    rw [hres] at hsucc
    exact Bool.false_ne_true hsucc

/-- Shape of the store after a successful revoke whose rename did not
raise: the old directory contents sit under cn ++ ".revoked" at the
head, and every other entry is keyed neither cn nor cn ++ ".revoked". -/
theorem revoke_success_fs (cn serial : String) (env : RevokeEnv) (fs : FS)
    (hren : env.renameRaises = false)
    (hsucc : (revoke_certificate cn serial env fs).1.1 = true) :
    ∃ d0 rest, lookupA fs.dirs cn = some d0 ∧
      (revoke_certificate cn serial env fs).2.1.dirs = (cn ++ ".revoked", d0) :: rest ∧
      (∀ p ∈ rest, p.1 ≠ cn ∧ p.1 ≠ cn ++ ".revoked") := by
  obtain ⟨hcert, ht, hrev⟩ := revoke_success_branch cn serial env fs hsucc
  have hfs := revoke_fs_spec cn serial env fs
  rw [if_pos hcert, if_neg (fun hco => hco ht), if_pos hrev] at hfs
  have hnr : ¬ (env.renameRaises = true) := by
    rw [hren]
    exact Bool.false_ne_true
  rw [if_neg hnr] at hfs
  cases hd0 : lookupA fs.dirs cn with
  | none =>
    exfalso
    unfold readFileIn at hcert
    rw [hd0] at hcert
    cases hcert
  | some d0 =>
    have hdirs1 : (if dirExists fs (cn ++ ".revoked") then rmtree fs (cn ++ ".revoked") else fs).dirs =
        (if dirExists fs (cn ++ ".revoked") then eraseA fs.dirs (cn ++ ".revoked") else fs.dirs) := by
      split <;> rfl
    have hlook1 : lookupA (if dirExists fs (cn ++ ".revoked") then rmtree fs (cn ++ ".revoked") else fs).dirs cn = some d0 := by
      rw [hdirs1]
      by_cases hb : dirExists fs (cn ++ ".revoked") = true
      · rw [if_pos hb, lookupA_eraseA_ne _ _ _ (self_ne_append_revoked cn)]
        exact hd0
      · rw [if_neg hb]
        exact hd0
    refine ⟨d0,
      eraseA (eraseA (if dirExists fs (cn ++ ".revoked") then rmtree fs (cn ++ ".revoked") else fs).dirs cn) (cn ++ ".revoked"),
      rfl, ?_, ?_⟩
    · rw [hfs]
      unfold renameDir
      rw [hlook1]
      rfl
    · intro p hp
      have h1 := mem_eraseA hp
      have h2 := mem_eraseA h1.1
      exact ⟨h2.2, h1.2⟩

/-- Claim C8: after a successful revoke (rename not raising, and the
original directory holding no stray file named cn ++ ".revoked.crt"),
no listing row is keyed cn ++ ".revoked" or cn — a row needs a file
named exactly (directory name) ++ ".crt", while the renamed directory
still holds the certificate under its old name cn ++ ".crt". -/
theorem c8_revoked_dirs_not_listed (cn serial : String) (env : RevokeEnv)
    (fs : FS) (parse : String → Except String ParseInfo)
    (hren : env.renameRaises = false)
    (hsucc : (revoke_certificate cn serial env fs).1.1 = true)
    (hnof : readFileIn fs cn (cn ++ ".revoked" ++ ".crt") = none) :
    (∀ e ∈ (list_certificates parse (revoke_certificate cn serial env fs).2.1).1,
      e.cn ≠ cn ++ ".revoked" ∧ e.cn ≠ cn) ∧
    readFileIn (revoke_certificate cn serial env fs).2.1 (cn ++ ".revoked") (cn ++ ".crt") =
      readFileIn fs cn (cn ++ ".crt") := by
  obtain ⟨d0, rest, hd0, hdirs, hrest⟩ := revoke_success_fs cn serial env fs hren hsucc
  have hnof0 : lookupA d0 (cn ++ ".revoked" ++ ".crt") = none := by
    unfold readFileIn at hnof
    rw [hd0] at hnof
    exact hnof
  constructor
  · intro e he
    simp only [list_certificates] at he
    obtain ⟨d, hmem, hsome⟩ := mem_listEntries (mem_sortByCn.mp he)
    rw [hdirs] at hmem
    constructor
    · intro hecn
      rcases List.mem_cons.mp hmem with heq | hrestmem
      · have hd : d = d0 := congrArg Prod.snd heq
        rw [hd, hecn, hnof0] at hsome
        cases hsome
      · exact (hrest _ hrestmem).2 (by rw [← hecn])
    · intro hecn
      rcases List.mem_cons.mp hmem with heq | hrestmem
      · have : e.cn = cn ++ ".revoked" := congrArg Prod.fst heq
        rw [hecn] at this
        exact self_ne_append_revoked cn this
      · exact (hrest _ hrestmem).1 (by rw [← hecn])
  · unfold readFileIn
    rw [hdirs, hd0]
    simp [lookupA]

/-- Witness for C8 at a concrete store. -/
theorem c8_revoked_dirs_not_listed_wit :
    (∀ e ∈ (list_certificates (fun _ => Except.ok
        { issued := "2026-01-01 00:00", expires := "2026-03-01 00:00",
          serial := "12345", status := "Active" })
        (revoke_certificate "dev1" "1234"
          { tokenRes := okTokenRes, revokeRes := okRevokeRes, renameRaises := false }
          sampleStore).2.1).1,
      e.cn ≠ "dev1" ++ ".revoked" ∧ e.cn ≠ "dev1") ∧
    readFileIn (revoke_certificate "dev1" "1234"
        { tokenRes := okTokenRes, revokeRes := okRevokeRes, renameRaises := false }
        sampleStore).2.1 ("dev1" ++ ".revoked") ("dev1" ++ ".crt") =
      readFileIn sampleStore "dev1" ("dev1" ++ ".crt") :=
  c8_revoked_dirs_not_listed "dev1" "1234"
    { tokenRes := okTokenRes, revokeRes := okRevokeRes, renameRaises := false }
    sampleStore
    (fun _ => Except.ok
      { issued := "2026-01-01 00:00", expires := "2026-03-01 00:00",
        serial := "12345", status := "Active" })
    rfl (by decide) (by decide)

/-! ### Per-operation step lemmas for the two-state invariant -/

theorem dirExists_applyOp_other (fs : FS) (op : Op) (n : String)
    (h1 : n ≠ opName op) (h2 : n ≠ opName op ++ ".revoked") :
    dirExists (applyOp fs op) n = dirExists fs n := by
  cases op with
  | issue cn ct v sans env =>
    dsimp [applyOp, opName] at *
    rw [issue_fs_spec]
    by_cases h : env.res.returncode = 0
    · rw [if_pos h, dirExists_writeFileIn, dirExists_writeFileIn,
        dirExists_mkdir_ne _ _ _ h1]
    · rw [if_neg h, dirExists_mkdir_ne _ _ _ h1]
  | revoke cn serial env =>
    dsimp [applyOp, opName] at *
    rw [revoke_fs_spec]
    by_cases hc : (readFileIn fs cn (cn ++ ".crt")).isSome = true
    · rw [if_pos hc]
      by_cases ht : env.tokenRes.returncode ≠ 0
      · rw [if_pos ht]
      · rw [if_neg ht]
        by_cases hr : (decide (env.revokeRes.returncode = 0) || alreadyRevokedFlag env) = true
        · rw [if_pos hr]
          have hfs1 : dirExists
              (if dirExists fs (cn ++ ".revoked") then rmtree fs (cn ++ ".revoked") else fs) n =
              dirExists fs n := by
            by_cases hb : dirExists fs (cn ++ ".revoked") = true
            · rw [if_pos hb, dirExists_rmtree_ne _ _ _ h2]
            · rw [if_neg hb]
          by_cases hren : env.renameRaises = true
          · rw [if_pos hren]
            exact hfs1
          · rw [if_neg hren, dirExists_rename_other _ _ _ _ h1 h2]
            exact hfs1
        · rw [if_neg hr]
    · rw [if_neg hc]

theorem applyOp_issue_self (fs : FS) (cn ct : String) (v : Int)
    (sans : List String) (env : IssueEnv) :
    dirExists (applyOp fs (Op.issue cn ct v sans env)) cn = true ∧
    dirExists (applyOp fs (Op.issue cn ct v sans env)) (cn ++ ".revoked") =
      dirExists fs (cn ++ ".revoked") := by
  dsimp [applyOp]
  rw [issue_fs_spec]
  by_cases h : env.res.returncode = 0
  · rw [if_pos h]
    constructor
    · rw [dirExists_writeFileIn, dirExists_writeFileIn]
      exact dirExists_mkdir_self fs cn
    · rw [dirExists_writeFileIn, dirExists_writeFileIn,
        dirExists_mkdir_ne _ _ _ (Ne.symm (self_ne_append_revoked cn))]
  · rw [if_neg h]
    constructor
    · exact dirExists_mkdir_self fs cn
    · rw [dirExists_mkdir_ne _ _ _ (Ne.symm (self_ne_append_revoked cn))]

theorem applyOp_revoke_absent (fs : FS) (cn serial : String) (env : RevokeEnv)
    (h : dirExists fs cn = false) :
    applyOp fs (Op.revoke cn serial env) = fs := by
  have hl : lookupA fs.dirs cn = none := by
    cases hx : lookupA fs.dirs cn with
    | none => rfl
    | some d =>
      exfalso
      unfold dirExists at h
      rw [hx] at h
      cases h
  have hro : ¬ ((readFileIn fs cn (cn ++ ".crt")).isSome = true) := by
    unfold readFileIn
    rw [hl]
    exact Bool.false_ne_true
  dsimp [applyOp]
  rw [revoke_fs_spec, if_neg hro]

theorem applyOp_revoke_good (fs : FS) (cn serial : String) (env : RevokeEnv)
    (hg : goodState fs cn) :
    goodState (applyOp fs (Op.revoke cn serial env)) cn := by
  rcases hg with ⟨h1, h2⟩ | ⟨h1, h2⟩
  · dsimp [applyOp]
    rw [revoke_fs_spec]
    by_cases hc : (readFileIn fs cn (cn ++ ".crt")).isSome = true
    · rw [if_pos hc]
      by_cases ht : env.tokenRes.returncode ≠ 0
      · rw [if_pos ht]
        exact Or.inl ⟨h1, h2⟩
      · rw [if_neg ht]
        by_cases hr : (decide (env.revokeRes.returncode = 0) || alreadyRevokedFlag env) = true
        · rw [if_pos hr]
          have hfs1 : (if dirExists fs (cn ++ ".revoked") then rmtree fs (cn ++ ".revoked") else fs) = fs := by
            rw [if_neg (by rw [h2]; exact Bool.false_ne_true)]
          rw [hfs1]
          by_cases hren : env.renameRaises = true
          · rw [if_pos hren]
            exact Or.inl ⟨h1, h2⟩
          · rw [if_neg hren]
            refine Or.inr ⟨?_, ?_⟩
            · exact dirExists_rename_src _ _ _ (self_ne_append_revoked cn)
            · exact dirExists_rename_dst _ _ _ h1
        · rw [if_neg hr]
          exact Or.inl ⟨h1, h2⟩
    · rw [if_neg hc]
      exact Or.inl ⟨h1, h2⟩
  · rw [applyOp_revoke_absent fs cn serial env h1]
    exact Or.inr ⟨h1, h2⟩

/-! ### Sequence-level preservation lemmas -/

theorem goodState_runOps (cn : String) (ops : List Op) :
    ∀ fs, (∀ op ∈ ops, endsRevoked (opName op) = false) →
    endsRevoked cn = false →
    (∀ op ∈ ops, isIssue cn op = false) →
    goodState fs cn → goodState (runOps fs ops) cn := by
  induction ops with
  | nil =>
    intro fs _ _ _ hg
    exact hg
  | cons op rest ih =>
    intro fs hnames hcn hnoiss hg
    have hstep : goodState (applyOp fs op) cn := by
      by_cases hop : opName op = cn
      · cases op with
        | issue m ct v sans env =>
          exfalso
          dsimp [opName] at hop
          have := hnoiss _ (List.mem_cons_self _ _)
          rw [show isIssue cn (Op.issue m ct v sans env) = (m == cn) from rfl] at this
          rw [hop] at this
          simp at this
        | revoke m serial env =>
          dsimp [opName] at hop
          subst hop
          exact applyOp_revoke_good fs m serial env hg
      · have e1 := dirExists_applyOp_other fs op cn (Ne.symm hop)
          (ne_append_revoked_of_not_endsRevoked hcn)
        have e2 := dirExists_applyOp_other fs op (cn ++ ".revoked")
          (Ne.symm (ne_append_revoked_of_not_endsRevoked
            (hnames _ (List.mem_cons_self _ _))))
          (fun hh => hop (append_revoked_inj hh).symm)
        unfold goodState at hg ⊢
        rw [e1, e2]
        exact hg
    exact ih (applyOp fs op)
      (fun o ho => hnames o (List.mem_cons_of_mem _ ho)) hcn
      (fun o ho => hnoiss o (List.mem_cons_of_mem _ ho)) hstep

theorem c5_aux (cn : String) (ops : List Op) :
    ∀ fs, (∀ op ∈ ops, endsRevoked (opName op) = false) →
    endsRevoked cn = false →
    ops.countP (isIssue cn) ≤ 1 →
    dirExists fs cn = false → dirExists fs (cn ++ ".revoked") = false →
    ops.any (isIssue cn) = true → goodState (runOps fs ops) cn := by
  induction ops with
  | nil =>
    intro fs _ _ _ _ _ hany
    simp at hany
  | cons op rest ih =>
    intro fs hnames hcn hcount h1 h2 hany
    by_cases hiss : isIssue cn op = true
    · cases op with
      | revoke m serial env => simp [isIssue] at hiss
      | issue m ct v sans env =>
        have hm : m = cn := by simpa [isIssue] using hiss
        subst hm
        have hgood : goodState (applyOp fs (Op.issue m ct v sans env)) m := by
          obtain ⟨ha, hb⟩ := applyOp_issue_self fs m ct v sans env
          exact Or.inl ⟨ha, by rw [hb]; exact h2⟩
        have hrest0 : ∀ o ∈ rest, isIssue m o = false := by
          have hc0 : rest.countP (isIssue m) = 0 := by
            rw [List.countP_cons_of_pos _ _ hiss] at hcount
            omega
          intro o ho
          have := List.countP_eq_zero.mp hc0 o ho
          simpa using this
        exact goodState_runOps m rest (applyOp fs (Op.issue m ct v sans env))
          (fun o ho => hnames o (List.mem_cons_of_mem _ ho)) hcn hrest0 hgood
    · have hissf : isIssue cn op = false := by
        cases hx : isIssue cn op with
        | false => rfl
        | true => exact absurd hx hiss
      have hany' : rest.any (isIssue cn) = true := by
        rw [List.any_cons] at hany
        rcases Bool.or_eq_true_iff.mp hany with hl | hr
        · exact absurd hl hiss
        · exact hr
      have hstate : dirExists (applyOp fs op) cn = false ∧
          dirExists (applyOp fs op) (cn ++ ".revoked") = false := by
        by_cases hop : opName op = cn
        · cases op with
          | issue m ct v sans env =>
            exfalso
            dsimp [opName] at hop
            rw [show isIssue cn (Op.issue m ct v sans env) = (m == cn) from rfl,
              hop] at hissf
            simp at hissf
          | revoke m serial env =>
            dsimp [opName] at hop
            subst hop
            rw [applyOp_revoke_absent fs m serial env h1]
            exact ⟨h1, h2⟩
        · constructor
          · rw [dirExists_applyOp_other fs op cn (Ne.symm hop)
              (ne_append_revoked_of_not_endsRevoked hcn)]
            exact h1
          · rw [dirExists_applyOp_other fs op (cn ++ ".revoked")
              (Ne.symm (ne_append_revoked_of_not_endsRevoked
                (hnames _ (List.mem_cons_self _ _))))
              (fun hh => hop (append_revoked_inj hh).symm)]
            exact h2
      have hcount' : rest.countP (isIssue cn) ≤ 1 := by
        rw [List.countP_cons_of_neg _ _
          (by rw [hissf]; exact Bool.false_ne_true)] at hcount
        exact hcount
      exact ih (applyOp fs op)
        (fun o ho => hnames o (List.mem_cons_of_mem _ ho)) hcn hcount'
        hstate.1 hstate.2 hany'

/-- Counterexample to claim C5 as stated: issue dev1, revoke it
(success, rename fine), then issue it again — afterwards both
CERTS_DIR/dev1 and CERTS_DIR/dev1.revoked exist at once. -/
theorem c5_both_dirs_after_reissue_cex :
    dirExists (runOps emptyFS
      [Op.issue "dev1" "Client" 30 [] okIssueEnv,
       Op.revoke "dev1" "1234"
         { tokenRes := okTokenRes, revokeRes := okRevokeRes, renameRaises := false },
       Op.issue "dev1" "Client" 30 [] okIssueEnv]) "dev1" = true ∧
    dirExists (runOps emptyFS
      [Op.issue "dev1" "Client" 30 [] okIssueEnv,
       Op.revoke "dev1" "1234"
         { tokenRes := okTokenRes, revokeRes := okRevokeRes, renameRaises := false },
       Op.issue "dev1" "Client" 30 [] okIssueEnv]) "dev1.revoked" = true := by
  decide

/-- Claim C5 amended: starting from an empty certs directory, for any
operation sequence in which no operated-on common name ends in
".revoked" and cn is issued at most once, once cn has been issued its
on-disk state is exactly one of the two: CERTS_DIR/cn exists, or
CERTS_DIR/cn.revoked exists — never both.  (Re-issuing a name after
revoking it breaks the at-most-once condition and can make both
directories exist at once; see the counterexample.) -/
theorem c5_two_state_invariant (ops : List Op) (cn : String)
    (hnames : ∀ op ∈ ops, endsRevoked (opName op) = false)
    (honce : ops.countP (isIssue cn) ≤ 1)
    (hiss : ops.any (isIssue cn) = true) :
    goodState (runOps emptyFS ops) cn := by
  have hcn : endsRevoked cn = false := by
    obtain ⟨op, hmem, hP⟩ := List.any_eq_true.mp hiss
    cases op with
    | revoke m serial env => simp [isIssue] at hP
    | issue m ct v sans env =>
      have hm : m = cn := by simpa [isIssue] using hP
      have := hnames _ hmem
      dsimp [opName] at this
      rwa [hm] at this
  exact c5_aux cn ops emptyFS hnames hcn honce rfl rfl hiss

/-- Witness for the amended C5: a concrete issue-then-revoke sequence
ends in the revoked-only state. -/
theorem c5_two_state_invariant_wit :
    goodState (runOps emptyFS
      [Op.issue "dev1" "Client" 30 [] okIssueEnv,
       Op.revoke "dev1" "1234"
         { tokenRes := okTokenRes, revokeRes := okRevokeRes, renameRaises := false }]) "dev1" :=
  c5_two_state_invariant
    [Op.issue "dev1" "Client" 30 [] okIssueEnv,
     Op.revoke "dev1" "1234"
       { tokenRes := okTokenRes, revokeRes := okRevokeRes, renameRaises := false }]
    "dev1" (by decide) (by decide) (by decide)
